import Mathlib

/-!
Shallow embedding of the gambling-risk dashboard (`src/app.py`).

The app loads a CSV into a pandas DataFrame, normalizes it (integer cast of
`risk_score`, string cast of `risk_bucket`, rename of `gambling_days` to
`deposit_days`, derivation of `gambling_txn_count` when the column is absent),
filters by a selected `risk_bucket` and an optional `gambling_spend > 100`
flag, and renders a header, a bucket-count table, three mean metrics,
per-row detail panels, a scatterplot, and a PDF download.

A DataFrame is modelled as a `Table`: a list of rows plus the name of the
days column (to model the rename) and a flag recording whether the
`gambling_txn_count` column is present (to model the existence check on
line 19 of `app.py`).  Row labels (the pandas index) are modelled by
`List.enum`: positional labels assigned at load time, preserved by filtering.
Machine floats are modelled as rationals; the empty-series mean (pandas
returns the not-a-number sentinel) is modelled as `Option` with `none`
rendered the way Python string-formats the sentinel (`"nan"`).
-/

namespace GamblingRisk

/-- Truncation toward zero of a rational, the semantics of `astype(int)`
and `int(...)` on a float value (`q.num.tdiv q.den` truncates toward zero
since the denominator is positive). -/
def truncQ (q : ℚ) : ℤ := q.num.tdiv q.den

/-- Round half to even, the rounding performed by `Series.round()`
(IEEE-754 / numpy `rint` semantics, also Python's builtin `round`). -/
def roundHalfEven (q : ℚ) : ℤ :=
  let f := ⌊q⌋
  let r := q - (f : ℚ)
  if r < 1/2 then f
  else if 1/2 < r then f + 1
  else if f % 2 = 0 then f else f + 1

/-- Two-digit zero padding, as in the fractional part of `%.2f`. -/
def pad2 (n : ℕ) : String := if n < 10 then "0" ++ toString n else toString n

/-- Three-digit zero padding, for the comma groups of format spec `,`. -/
def pad3 (n : ℕ) : String :=
  if n < 10 then "00" ++ toString n
  else if n < 100 then "0" ++ toString n
  else toString n

/-- Digit grouping of a natural number in groups of three, as produced by
Python's `,` format spec. -/
def commaGroup (n : ℕ) : String :=
  if n < 1000 then toString n
  else commaGroup (n / 1000) ++ "," ++ pad3 (n % 1000)
  termination_by n
  decreasing_by exact Nat.div_lt_self (by omega) (by omega)

/-- Python format spec `,.2f` applied to a (finite) value. -/
def fmtComma2 (q : ℚ) : String :=
  let c := roundHalfEven (q * 100)
  (if c < 0 then "-" else "") ++ commaGroup (c.natAbs / 100) ++ "." ++ pad2 (c.natAbs % 100)

/-- Python format spec `.2f` applied to a (finite) value. -/
def fmt2 (q : ℚ) : String :=
  let c := roundHalfEven (q * 100)
  (if c < 0 then "-" else "") ++ toString (c.natAbs / 100) ++ "." ++ pad2 (c.natAbs % 100)

/-- Python format spec `.1f` applied to a (finite) value. -/
def fmt1 (q : ℚ) : String :=
  let c := roundHalfEven (q * 10)
  (if c < 0 then "-" else "") ++ toString (c.natAbs / 10) ++ "." ++ toString (c.natAbs % 10)

/-- Python format spec `.2%`: scale by 100, format `.2f`, append a percent sign. -/
def fmtPct2 (q : ℚ) : String := fmt2 (q * 100) ++ "%"

/-- One row of the merged gambling dataset (one user).  `days` is the value
of the days column, whose NAME lives on the table (`gambling_days` before the
rename, `deposit_days` after).  `gambling_txn_count` is meaningful only when
the table's `hasTxnCountCol` flag is set. -/
structure Row where
  risk_score : ℚ
  risk_bucket : String
  days : ℤ
  gambling_spend : ℚ
  total_txn_count : ℤ
  total_spend : ℚ
  gambling_txn_pct : ℚ
  gambling_pct_of_spend : ℚ
  risk_reason : String
  gambling_txn_count : ℤ
deriving DecidableEq, Repr, Inhabited

/-- The DataFrame `df`: its rows, the current name of the days column, and
whether the `gambling_txn_count` column is present. -/
structure Table where
  daysColName : String
  hasTxnCountCol : Bool
  rows : List Row
deriving DecidableEq, Repr

/-- Line 14: `df['risk_score'] = df['risk_score'].astype(int)`. -/
def castScores (t : Table) : Table :=
  { t with rows := t.rows.map (fun r => { r with risk_score := ((truncQ r.risk_score : ℤ) : ℚ) }) }

/-- Line 15: `df['risk_bucket'] = df['risk_bucket'].astype(str)` (the values
read from the CSV are strings, so `str(...)` is the identity `toString`). -/
def castBuckets (t : Table) : Table :=
  { t with rows := t.rows.map (fun r => { r with risk_bucket := toString r.risk_bucket }) }

/-- Line 16: `df.rename(columns={'gambling_days': 'deposit_days'}, inplace=True)`;
a pandas rename is a no-op when the source column name is absent. -/
def renameDays (t : Table) : Table :=
  if t.daysColName = "gambling_days" then { t with daysColName := "deposit_days" } else t

/-- Lines 19-20: if the `gambling_txn_count` column is absent, derive it as
`(df['gambling_txn_pct'] * df['total_txn_count']).round().astype(int)`. -/
def deriveTxnCount (t : Table) : Table :=
  if t.hasTxnCountCol then t
  else
    { t with
      hasTxnCountCol := true
      rows := t.rows.map (fun r =>
        { r with gambling_txn_count := roundHalfEven (r.gambling_txn_pct * (r.total_txn_count : ℚ)) }) }

/-- Lines 14-20: the whole startup normalization, in source order. -/
def normalize (t : Table) : Table :=
  deriveTxnCount (renameDays (castBuckets (castScores t)))

/-- First-occurrence deduplication with an accumulator of already-seen
values: the order semantics of `Series.unique()`. -/
def dedupFirstAux (seen : List String) : List String → List String
  | [] => []
  | a :: l => if a ∈ seen then dedupFirstAux seen l else a :: dedupFirstAux (a :: seen) l

/-- The call `df['risk_bucket'].unique()`: distinct values in first-occurrence order. -/
def dedupFirst (l : List String) : List String := dedupFirstAux [] l

/-- Line 24: the options of the risk-level select box,
`sorted(df['risk_bucket'].unique())` (stable lexicographic ascending sort). -/
def riskOptions (t : Table) : List String :=
  (dedupFirst (t.rows.map (fun r => r.risk_bucket))).insertionSort (· ≤ ·)

/-- Line 24: `st.selectbox` returns an element of its option list (the one
the user picked); with an empty option list it returns `None`. -/
def selectedRisk (t : Table) (choice : ℕ) : Option String :=
  (riskOptions t)[choice]?

/-- Line 28 on labelled rows: `df[df['risk_bucket'] == selected_risk]`
keeps row labels. -/
def bucketIndexed (t : Table) (b : String) : List (ℕ × Row) :=
  t.rows.enum.filter (fun p => p.2.risk_bucket == b)

/-- Lines 28-30: the bucket filter, then the spend filter
`filtered_df[filtered_df['gambling_spend'] > 100]` when the checkbox is on. -/
def filteredIndexed (t : Table) (b : String) (flag : Bool) : List (ℕ × Row) :=
  if flag then (bucketIndexed t b).filter (fun p => decide (100 < p.2.gambling_spend))
  else bucketIndexed t b

/-- The rows of `filtered_df`, without their labels. -/
def filteredRows (t : Table) (b : String) (flag : Bool) : List Row :=
  (filteredIndexed t b flag).map Prod.snd

/-- Line 28 viewed on bare rows: the rows whose bucket equals the selection. -/
def bucketRows (t : Table) (b : String) : List Row :=
  t.rows.filter (fun r => r.risk_bucket == b)

/-- Line 34: `f"Displaying **{len(filtered_df)}** users in **{selected_risk}** category."`. -/
def headerMsg (t : Table) (b : String) (flag : Bool) : String :=
  "Displaying **" ++ toString (filteredRows t b flag).length ++ "** users in **" ++ b ++ "** category."

/-- Number of rows of `rows` whose bucket equals `b`. -/
def countBucket (rows : List Row) (b : String) : ℕ :=
  rows.countP (fun r => r.risk_bucket == b)

/-- The descending-count order used by `value_counts()`. -/
def descBySnd (p q : String × ℕ) : Prop := q.2 ≤ p.2

instance : DecidableRel descBySnd := fun p q => Nat.decLe q.2 p.2

instance : IsTotal (String × ℕ) descBySnd :=
  ⟨fun a b => (Nat.le_total b.2 a.2).elim Or.inl Or.inr⟩

instance : IsTrans (String × ℕ) descBySnd :=
  ⟨fun _ _ _ h1 h2 => Nat.le_trans h2 h1⟩

/-- Lines 39-40: `df['risk_bucket'].value_counts()` — one entry per distinct
bucket of the FULL table, ordered by descending count. -/
def bucketCounts (t : Table) : List (String × ℕ) :=
  ((dedupFirst (t.rows.map (fun r => r.risk_bucket))).map
    (fun b => (b, countBucket t.rows b))).insertionSort descBySnd

/-- The call `Series.mean()`: the arithmetic mean, or the not-a-number
sentinel (modelled as `none`) on an empty series. -/
def meanQ (xs : List ℚ) : Option ℚ :=
  if xs.isEmpty then none else some (xs.sum / (xs.length : ℚ))

/-- Line 55: `f"£{filtered_df['gambling_spend'].mean():,.2f}"`
(Python formats the float sentinel as the string `nan`). -/
def avgSpendMetric (rows : List Row) : String :=
  match meanQ (rows.map (fun r => r.gambling_spend)) with
  | none => "£nan"
  | some q => "£" ++ fmtComma2 q

/-- Line 56: `f"{filtered_df['gambling_txn_count'].mean():.1f}"`. -/
def avgTxnsMetric (rows : List Row) : String :=
  match meanQ (rows.map (fun r => (r.gambling_txn_count : ℚ))) with
  | none => "nan"
  | some q => fmt1 q

/-- Line 57: `f"{filtered_df['risk_score'].mean():.2f}"`. -/
def avgScoreMetric (rows : List Row) : String :=
  match meanQ (rows.map (fun r => r.risk_score)) with
  | none => "nan"
  | some q => fmt2 q

/-- The dictionary rendered inside one expander (lines 63-73). -/
structure DetailPanel where
  riskBucket : String
  explanation : String
  totalTxns : ℤ
  totalSpend : ℚ
  gamblingSpend : ℚ
  gamblingTxns : ℤ
  gamblingPctTxns : String
  gamblingPctSpend : String
  depositDays : ℤ
deriving DecidableEq, Repr

/-- Lines 63-73: the per-user detail dictionary for one row. -/
def mkPanel (r : Row) : DetailPanel :=
  { riskBucket := r.risk_bucket
    explanation := r.risk_reason
    totalTxns := r.total_txn_count
    totalSpend := r.total_spend
    gamblingSpend := r.gambling_spend
    gamblingTxns := r.gambling_txn_count
    gamblingPctTxns := fmtPct2 r.gambling_txn_pct
    gamblingPctSpend := fmtPct2 r.gambling_pct_of_spend
    depositDays := r.days }

/-- Line 62: the expander title
`f"User {idx} — Score: {row['risk_score']} | Spend: £{row['gambling_spend']:.2f}"`. -/
def panelTitle (i : ℕ) (r : Row) : String :=
  "User " ++ toString i ++ " — Score: " ++ toString r.risk_score ++
    " | Spend: £" ++ fmt2 r.gambling_spend

/-- Lines 61-73: `for idx, row in filtered_df.iterrows()` — one expander per
filtered row, keyed by the row's original label `idx`, in frame order. -/
def detailEntries (t : Table) (b : String) (flag : Bool) : List (ℕ × String × DetailPanel) :=
  (filteredIndexed t b flag).map (fun p => (p.1, panelTitle p.1 p.2, mkPanel p.2))

/-- Lines 78-85: the data the scatterplot consumes — `gambling_txn_pct` (x)
against `gambling_pct_of_spend` (y) over the full table. -/
def scatterData (t : Table) : List (ℚ × ℚ) :=
  t.rows.map (fun r => (r.gambling_txn_pct, r.gambling_pct_of_spend))

/-- Line 101: the fixed name of the exported PDF. -/
def pdfFileName : String := "gambling_txn_vs_spend_correlation.pdf"

/-- Everything the page displays for one (table, selection, flag) state. -/
structure Output where
  header : String
  bucketTable : List (String × ℕ)
  avgSpend : String
  avgTxns : String
  avgScore : String
  details : List (ℕ × String × DetailPanel)
  scatter : List (ℚ × ℚ)
  pdfName : String
deriving DecidableEq, Repr

/-- Lines 28-30 as a state-passing step: pandas boolean-mask indexing builds
a new frame and leaves `df` untouched. -/
def filterStep (t : Table) (b : String) (flag : Bool) : List (ℕ × Row) × Table :=
  (filteredIndexed t b flag, t)

/-- Line 34 as a state-passing step. -/
def headerStep (t : Table) (b : String) (n : ℕ) : String × Table :=
  ("Displaying **" ++ toString n ++ "** users in **" ++ b ++ "** category.", t)

/-- Lines 39-41 as a state-passing step: `value_counts().reset_index()`
builds a new frame. -/
def bucketStep (t : Table) : List (String × ℕ) × Table :=
  (bucketCounts t, t)

/-- Lines 55-57 as a state-passing step: `.mean()` reads the filtered frame. -/
def metricsStep (t : Table) (rows : List Row) : (String × String × String) × Table :=
  ((avgSpendMetric rows, avgTxnsMetric rows, avgScoreMetric rows), t)

/-- Lines 61-73 as a state-passing step: `iterrows()` reads the filtered frame. -/
def detailStep (t : Table) (fi : List (ℕ × Row)) : List (ℕ × String × DetailPanel) × Table :=
  (fi.map (fun p => (p.1, panelTitle p.1 p.2, mkPanel p.2)), t)

/-- Lines 78-85 as a state-passing step: `sns.regplot(data=df, ...)` reads
the full table without modifying it. -/
def scatterStep (t : Table) : List (ℚ × ℚ) × Table :=
  (scatterData t, t)

/-- The whole script run for one interaction: the choice index picks the
select-box option; every step threads the table state through.  With an
empty table the select box yields `None`: the equality filter against `None`
matches nothing and the f-string prints `None`. -/
def runDashboard (t : Table) (choice : ℕ) (flag : Bool) : Output × Table :=
  match selectedRisk t choice with
  | some b =>
    let s1 := filterStep t b flag
    let s2 := headerStep s1.2 b s1.1.length
    let s3 := bucketStep s2.2
    let s4 := metricsStep s3.2 (s1.1.map Prod.snd)
    let s5 := detailStep s4.2 s1.1
    let s6 := scatterStep s5.2
    ({ header := s2.1
       bucketTable := s3.1
       avgSpend := s4.1.1
       avgTxns := s4.1.2.1
       avgScore := s4.1.2.2
       details := s5.1
       scatter := s6.1
       pdfName := pdfFileName }, s6.2)
  | none =>
    let s2 := headerStep t "None" 0
    let s3 := bucketStep s2.2
    let s4 := metricsStep s3.2 []
    let s6 := scatterStep s4.2
    ({ header := s2.1
       bucketTable := s3.1
       avgSpend := s4.1.1
       avgTxns := s4.1.2.1
       avgScore := s4.1.2.2
       details := []
       scatter := s6.1
       pdfName := pdfFileName }, s6.2)

/-- A generic example row: the given bucket and gambling spend, all other
attributes neutral. -/
def exRow (b : String) (spend : ℚ) : Row :=
  { risk_score := 0
    risk_bucket := b
    days := 0
    gambling_spend := spend
    total_txn_count := 0
    total_spend := 0
    gambling_txn_pct := 0
    gambling_pct_of_spend := 0
    risk_reason := ""
    gambling_txn_count := 0 }

/-- The three-row example table of the spec (section 8). -/
def exTable : Table :=
  { daysColName := "deposit_days"
    hasTxnCountCol := true
    rows := [exRow "High" 150, exRow "High" 50, exRow "Low" 200] }

/-- A one-row example table whose input lacked the `gambling_txn_count`
column (so the derivation branch runs at startup). -/
def exTableNoCount : Table :=
  { daysColName := "gambling_days"
    hasTxnCountCol := false
    rows := [{ risk_score := 3
               risk_bucket := "High"
               days := 4
               gambling_spend := 150
               total_txn_count := 5
               total_spend := 1000
               gambling_txn_pct := 1/2
               gambling_pct_of_spend := 3/20
               risk_reason := "many gambling transactions"
               gambling_txn_count := 0 }] }

/-- A table satisfies this after normalization: integer-valued scores, the
days column renamed, the derived column present. -/
def IsNormalized (t : Table) : Prop :=
  (∀ r ∈ t.rows, ∃ n : ℤ, r.risk_score = (n : ℚ)) ∧
    t.daysColName ≠ "gambling_days" ∧ t.hasTxnCountCol = true

/-! ## General list lemmas -/

/-- Projecting labelled rows commutes with filtering on the row part. -/
theorem map_snd_filter {α β : Type} (Q : β → Bool) (s : List (α × β)) :
    (s.filter (fun p => Q p.2)).map Prod.snd = (s.map Prod.snd).filter Q := by
  induction s with
  | nil => rfl
  | cons a s ih =>
    by_cases h : Q a.2 <;> simp [List.filter_cons, h, ih]

/-- Rows kept plus rows dropped by a predicate account for the whole list. -/
theorem countP_pos_neg {α : Type} (p : α → Bool) (l : List α) :
    l.countP p + l.countP (fun a => !p a) = l.length := by
  induction l with
  | nil => rfl
  | cons a l ih =>
    by_cases h : p a <;> simp [List.countP_cons, h] <;> omega

theorem mem_dedupFirstAux {x : String} :
    ∀ {seen l : List String}, x ∈ dedupFirstAux seen l ↔ x ∈ l ∧ x ∉ seen := by
  intro seen l
  induction l generalizing seen with
  | nil => simp [dedupFirstAux]
  | cons a l ih =>
    rw [dedupFirstAux]
    split
    case isTrue h =>
      rw [ih]
      simp only [List.mem_cons]
      constructor
      · rintro ⟨h1, h2⟩
        exact ⟨Or.inr h1, h2⟩
      · rintro ⟨h1 | h1, h2⟩
        · exact absurd (h1 ▸ h) h2
        · exact ⟨h1, h2⟩
    case isFalse h =>
      simp only [List.mem_cons, ih]
      constructor
      · rintro (rfl | ⟨h1, h2⟩)
        · exact ⟨Or.inl rfl, h⟩
        · exact ⟨Or.inr h1, fun hx => h2 (Or.inr hx)⟩
      · rintro ⟨rfl | h1, h2⟩
        · exact Or.inl rfl
        · by_cases hxa : x = a
          · exact Or.inl hxa
          · exact Or.inr ⟨h1, fun hx => (hx.elim hxa h2 : False)⟩

theorem nodup_dedupFirstAux : ∀ {seen l : List String}, (dedupFirstAux seen l).Nodup := by
  intro seen l
  induction l generalizing seen with
  | nil => exact List.nodup_nil
  | cons a l ih =>
    rw [dedupFirstAux]
    split
    · exact ih
    · refine List.nodup_cons.mpr ⟨fun hmem => ?_, ih⟩
      exact (mem_dedupFirstAux.mp hmem).2 (List.mem_cons_self a _)

theorem mem_dedupFirst {x : String} {l : List String} : x ∈ dedupFirst l ↔ x ∈ l := by
  rw [dedupFirst, mem_dedupFirstAux]
  simp

theorem nodup_dedupFirst (l : List String) : (dedupFirst l).Nodup := nodup_dedupFirstAux

/-- Summing, over a duplicate-free list of values covering a list `l`, the
number of occurrences in `l` of each value gives the length of `l`. -/
theorem sum_countP_over_nodup :
    ∀ (d l : List String), d.Nodup → (∀ x ∈ l, x ∈ d) →
      (d.map (fun b => l.countP (fun x => x == b))).sum = l.length := by
  intro d
  induction d with
  | nil =>
    intro l _ hcov
    have hl : l = [] := List.eq_nil_iff_forall_not_mem.mpr (fun x hx => by simpa using hcov x hx)
    subst hl
    rfl
  | cons b d ih =>
    intro l hnd hcov
    have hbd : b ∉ d := (List.nodup_cons.mp hnd).1
    have hd : d.Nodup := (List.nodup_cons.mp hnd).2
    have hcov2 : ∀ x ∈ l.filter (fun x => !(x == b)), x ∈ d := by
      intro x hx
      rcases List.mem_filter.mp hx with ⟨hxl, hxb⟩
      rcases List.mem_cons.mp (hcov x hxl) with rfl | h3
      · simp at hxb
      · exact h3
    have hcount : ∀ b2 ∈ d,
        l.countP (fun x => x == b2) = (l.filter (fun x => !(x == b))).countP (fun x => x == b2) := by
      intro b2 hb2
      have hne : b2 ≠ b := fun e => hbd (e ▸ hb2)
      rw [List.countP_filter]
      apply List.countP_congr
      intro x _
      by_cases hxe : x = b2
      · subst hxe
        simp [hne]
      · simp [hxe]
    rw [List.map_cons, List.sum_cons, List.map_congr_left hcount,
      ih (l.filter (fun x => !(x == b))) hd hcov2, ← List.countP_eq_length_filter]
    exact countP_pos_neg (fun x => x == b) l

/-! ## Filter lemmas -/

theorem map_snd_bucketIndexed (t : Table) (b : String) :
    (bucketIndexed t b).map Prod.snd = bucketRows t b := by
  rw [bucketIndexed, bucketRows, map_snd_filter (fun r : Row => r.risk_bucket == b),
    List.enum_map_snd]

theorem filteredRows_false (t : Table) (b : String) :
    filteredRows t b false = bucketRows t b := by
  rw [filteredRows, filteredIndexed]
  simp only [Bool.false_eq_true, if_false]
  exact map_snd_bucketIndexed t b

theorem filteredRows_true (t : Table) (b : String) :
    filteredRows t b true =
      (bucketRows t b).filter (fun r => decide (100 < r.gambling_spend)) := by
  rw [filteredRows, filteredIndexed]
  simp only [if_true]
  rw [map_snd_filter (fun r : Row => decide (100 < r.gambling_spend)),
    map_snd_bucketIndexed]

/-! ## Normalization lemmas -/

theorem truncQ_intCast (n : ℤ) : truncQ ((n : ℤ) : ℚ) = n := by
  rw [truncQ, Rat.intCast_num, Rat.intCast_den]
  exact Int.tdiv_one n

@[simp] theorem castScores_daysColName (t : Table) :
    (castScores t).daysColName = t.daysColName := rfl

@[simp] theorem castScores_hasTxnCountCol (t : Table) :
    (castScores t).hasTxnCountCol = t.hasTxnCountCol := rfl

@[simp] theorem castBuckets_daysColName (t : Table) :
    (castBuckets t).daysColName = t.daysColName := rfl

@[simp] theorem castBuckets_hasTxnCountCol (t : Table) :
    (castBuckets t).hasTxnCountCol = t.hasTxnCountCol := rfl

@[simp] theorem renameDays_rows (t : Table) : (renameDays t).rows = t.rows := by
  rw [renameDays]
  split <;> rfl

@[simp] theorem renameDays_hasTxnCountCol (t : Table) :
    (renameDays t).hasTxnCountCol = t.hasTxnCountCol := by
  rw [renameDays]
  split <;> rfl

@[simp] theorem deriveTxnCount_daysColName (t : Table) :
    (deriveTxnCount t).daysColName = t.daysColName := by
  rw [deriveTxnCount]
  split <;> rfl

@[simp] theorem deriveTxnCount_hasTxnCountCol (t : Table) :
    (deriveTxnCount t).hasTxnCountCol = true := by
  rw [deriveTxnCount]
  split
  case isTrue h => exact h
  case isFalse h => rfl

/-- Casting a string column to string changes nothing. -/
theorem castBuckets_eq (t : Table) : castBuckets t = t := by
  rw [castBuckets, show (fun r : Row => { r with risk_bucket := toString r.risk_bucket }) =
    (fun r : Row => r) from rfl, List.map_id']

theorem castScores_eq_of (t : Table)
    (h : ∀ r ∈ t.rows, ∃ n : ℤ, r.risk_score = (n : ℚ)) : castScores t = t := by
  rw [castScores]
  have hmap : ∀ r ∈ t.rows,
      ({ r with risk_score := ((truncQ r.risk_score : ℤ) : ℚ) } : Row) = r := by
    intro r hr
    obtain ⟨n, hn⟩ := h r hr
    have hs : ((truncQ r.risk_score : ℤ) : ℚ) = r.risk_score := by
      rw [hn, truncQ_intCast]
    rw [hs]
  rw [List.map_congr_left hmap, List.map_id']

theorem renameDays_eq_of (t : Table) (h : t.daysColName ≠ "gambling_days") :
    renameDays t = t := by
  rw [renameDays, if_neg h]

theorem deriveTxnCount_eq_of (t : Table) (h : t.hasTxnCountCol = true) :
    deriveTxnCount t = t := by
  rw [deriveTxnCount, if_pos h]

/-- The rows coming out of the derivation step: untouched, or re-created
with only the `gambling_txn_count` attribute changed. -/
theorem deriveTxnCount_rows_cases (t : Table) :
    (deriveTxnCount t).rows = t.rows ∨
      (deriveTxnCount t).rows = t.rows.map (fun r =>
        { r with gambling_txn_count :=
            roundHalfEven (r.gambling_txn_pct * (r.total_txn_count : ℚ)) }) := by
  rw [deriveTxnCount]
  split
  · exact Or.inl rfl
  · exact Or.inr rfl

theorem normalize_isNormalized (t : Table) : IsNormalized (normalize t) := by
  refine ⟨?_, ?_, ?_⟩
  · intro r hr
    rw [normalize] at hr
    have hscore : ∀ u : Table, (∀ r2 ∈ u.rows, ∃ n : ℤ, r2.risk_score = (n : ℚ)) →
        ∀ r2 ∈ (deriveTxnCount u).rows, ∃ n : ℤ, r2.risk_score = (n : ℚ) := by
      intro u hu r2 hr2
      rcases deriveTxnCount_rows_cases u with hc | hc
      · exact hu r2 (hc ▸ hr2)
      · rw [hc] at hr2
        rcases List.mem_map.mp hr2 with ⟨r3, hr3, rfl⟩
        exact hu r3 hr3
    refine hscore _ ?_ r hr
    intro r2 hr2
    rw [renameDays_rows, castBuckets_eq, castScores] at hr2
    rcases List.mem_map.mp hr2 with ⟨r3, _, rfl⟩
    exact ⟨truncQ r3.risk_score, rfl⟩
  · rw [normalize, deriveTxnCount_daysColName, renameDays]
    split
    case isTrue h => exact (by decide : ("deposit_days" : String) ≠ "gambling_days")
    case isFalse h => exact h
  · rw [normalize, deriveTxnCount_hasTxnCountCol]

theorem normalize_eq_self (t : Table) (h : IsNormalized t) : normalize t = t := by
  obtain ⟨hs, hd, hc⟩ := h
  rw [normalize, castScores_eq_of t hs, castBuckets_eq, renameDays_eq_of t hd,
    deriveTxnCount_eq_of t hc]

/-! ## Claim theorems -/

/-- C1: for every table and every selected `risk_bucket` value `b`, the
bucket filter returns exactly the rows whose `risk_bucket` equals `b`
(soundness and completeness of the mask on line 28), and the header message
of line 34 displays exactly the row count of the filtered result. -/
theorem bucket_filter_exact_and_header (t : Table) (b : String) (flag : Bool) :
    (∀ r ∈ bucketRows t b, r.risk_bucket = b) ∧
    (∀ r ∈ t.rows, r.risk_bucket = b → r ∈ bucketRows t b) ∧
    filteredRows t b false = bucketRows t b ∧
    headerMsg t b flag =
      "Displaying **" ++ toString (filteredRows t b flag).length ++
        "** users in **" ++ b ++ "** category." := by
  refine ⟨?_, ?_, filteredRows_false t b, rfl⟩
  · intro r hr
    have hp := (List.mem_filter.mp hr).2
    simpa using hp
  · intro r hr hb
    exact List.mem_filter.mpr ⟨hr, by simpa using hb⟩

theorem bucket_filter_exact_and_header_witness :
    (exRow "High" 50).risk_bucket = "High" ∧
    exRow "High" 50 ∈ bucketRows exTable "High" ∧
    headerMsg exTable "High" true =
      "Displaying **" ++ toString (filteredRows exTable "High" true).length ++
        "** users in **High** category." := by
  have h := bucket_filter_exact_and_header exTable "High" true
  have hrow : exRow "High" 50 ∈ exTable.rows := by decide
  have hmem : exRow "High" 50 ∈ bucketRows exTable "High" := h.2.1 _ hrow rfl
  exact ⟨h.1 _ hmem, hmem, h.2.2.2⟩

/-- C2: with the spend checkbox on, the result is a sublist of the
bucket-filtered result and every row in it has `gambling_spend > 100`;
on the spec's three-row example, selecting "High" with the flag on yields
exactly the first row. -/
theorem spend_filter_subset_and_example :
    (∀ (t : Table) (b : String), (filteredRows t b true).Sublist (filteredRows t b false)) ∧
    (∀ (t : Table) (b : String), ∀ r ∈ filteredRows t b true, 100 < r.gambling_spend) ∧
    filteredRows exTable "High" true = [exRow "High" 150] := by
  refine ⟨?_, ?_, by decide⟩
  · intro t b
    rw [filteredRows_true, filteredRows_false]
    exact List.filter_sublist _
  · intro t b r hr
    rw [filteredRows_true] at hr
    exact of_decide_eq_true (List.mem_filter.mp hr).2

theorem spend_filter_subset_and_example_witness :
    (filteredRows exTable "High" true).Sublist (filteredRows exTable "High" false) ∧
    100 < (exRow "High" 150).gambling_spend ∧
    filteredRows exTable "High" true = [exRow "High" 150] := by
  have h := spend_filter_subset_and_example
  refine ⟨h.1 exTable "High", ?_, h.2.2⟩
  exact h.2.1 exTable "High" _ (by rw [h.2.2]; exact List.mem_singleton_self _)

/-- C3: when the `gambling_txn_count` column was absent from the input, every
row of the normalized table carries the derived value
`round(gambling_txn_pct * total_txn_count)` (round-half-to-even, the
semantics of `Series.round().astype(int)` on lines 19-20). -/
theorem derived_txn_count_eq_round (t : Table) (h : t.hasTxnCountCol = false) :
    ∀ r ∈ (normalize t).rows,
      r.gambling_txn_count = roundHalfEven (r.gambling_txn_pct * (r.total_txn_count : ℚ)) := by
  intro r hr
  rw [normalize] at hr
  have hflag : (renameDays (castBuckets (castScores t))).hasTxnCountCol = false := by
    rw [renameDays_hasTxnCountCol, castBuckets_hasTxnCountCol, castScores_hasTxnCountCol, h]
  rw [deriveTxnCount, if_neg (by rw [hflag]; exact Bool.false_ne_true)] at hr
  rcases List.mem_map.mp hr with ⟨r0, _, rfl⟩
  rfl

theorem derived_txn_count_eq_round_witness :
    (normalize exTableNoCount).rows.headI.gambling_txn_count =
      roundHalfEven ((normalize exTableNoCount).rows.headI.gambling_txn_pct *
        ((normalize exTableNoCount).rows.headI.total_txn_count : ℚ)) := by
  apply derived_txn_count_eq_round exTableNoCount rfl
  have hne : (normalize exTableNoCount).rows ≠ [] := by decide
  cases hl : (normalize exTableNoCount).rows with
  | nil => exact absurd hl hne
  | cons a l => exact List.mem_cons_self a l

/-- C5: over an empty filtered subset, the three means are the not-a-number
sentinel (no exception is possible: the metric renderers are total), and
each metric renders as the fixed placeholder string Python produces for
that sentinel. -/
theorem empty_filter_means_placeholder (t : Table) (b : String) (flag : Bool)
    (h : filteredRows t b flag = []) :
    meanQ ((filteredRows t b flag).map (fun r => r.gambling_spend)) = none ∧
    avgSpendMetric (filteredRows t b flag) = "£nan" ∧
    avgTxnsMetric (filteredRows t b flag) = "nan" ∧
    avgScoreMetric (filteredRows t b flag) = "nan" := by
  rw [h]
  exact ⟨rfl, rfl, rfl, rfl⟩

theorem empty_filter_means_placeholder_witness :
    meanQ ((filteredRows exTable "Medium" false).map (fun r => r.gambling_spend)) = none ∧
    avgSpendMetric (filteredRows exTable "Medium" false) = "£nan" ∧
    avgTxnsMetric (filteredRows exTable "Medium" false) = "nan" ∧
    avgScoreMetric (filteredRows exTable "Medium" false) = "nan" :=
  empty_filter_means_placeholder exTable "Medium" false rfl

/-- C6: the normalizer is idempotent — running the four startup steps a
second time on an already-normalized table changes nothing — and in
particular the derivation step (d) is a no-op whenever the
`gambling_txn_count` column already exists. -/
theorem normalize_idempotent (t : Table) :
    normalize (normalize t) = normalize t ∧
    (t.hasTxnCountCol = true → deriveTxnCount t = t) :=
  ⟨normalize_eq_self (normalize t) (normalize_isNormalized t),
    fun h => deriveTxnCount_eq_of t h⟩

theorem normalize_idempotent_witness :
    normalize (normalize exTableNoCount) = normalize exTableNoCount ∧
    deriveTxnCount exTable = exTable :=
  ⟨(normalize_idempotent exTableNoCount).1, (normalize_idempotent exTable).2 rfl⟩

/-- C7: the risk-level select box offers exactly the distinct `risk_bucket`
values of the table, without duplicates, sorted lexicographically; whatever
option index the user picks, the selected value is one of the offered
options. -/
theorem risk_options_sorted_distinct (t : Table) :
    (riskOptions t).Nodup ∧
    (∀ b, b ∈ riskOptions t ↔ b ∈ t.rows.map (fun r => r.risk_bucket)) ∧
    (riskOptions t).Pairwise (fun a b : String => a ≤ b) ∧
    (∀ c s, selectedRisk t c = some s → s ∈ riskOptions t) := by
  have hperm := List.perm_insertionSort (fun a b : String => a ≤ b)
    (dedupFirst (t.rows.map (fun r => r.risk_bucket)))
  refine ⟨?_, ?_, ?_, ?_⟩
  · exact (nodup_dedupFirst _).perm hperm.symm
  · intro b
    rw [riskOptions, List.mem_insertionSort, mem_dedupFirst]
  · exact List.sorted_insertionSort _ _
  · intro c s hcs
    rw [selectedRisk] at hcs
    exact List.getElem?_mem hcs

theorem risk_options_sorted_distinct_witness :
    "Low" ∈ riskOptions exTable ∧ "High" ∈ riskOptions exTable := by
  have h := risk_options_sorted_distinct exTable
  have hle : ("High" : String) ≤ "Low" := by
    rw [String.le_iff_toList_le]
    decide
  have hopts : riskOptions exTable = ["High", "Low"] := by
    simp [riskOptions, dedupFirst, dedupFirstAux, exTable, exRow, List.insertionSort,
      List.orderedInsert, hle]
  exact ⟨(h.2.1 "Low").mpr (by simp [exTable, exRow]),
    h.2.2.2 0 "High" (by rw [selectedRisk, hopts]; rfl)⟩

/-- C4: the bucket-count table has one entry per distinct `risk_bucket`
value of the full table (no duplicate keys, keys are exactly the values
present), each entry carries the number of rows with that bucket, the
entries are ordered by descending count, the counts sum to the full table's
row count, and the rendered bucket table does not depend on the selection
or the spend flag. -/
theorem bucket_counts_table (t : Table) (c1 c2 : ℕ) (f1 f2 : Bool) :
    ((bucketCounts t).map Prod.fst).Nodup ∧
    (∀ b, b ∈ (bucketCounts t).map Prod.fst ↔ b ∈ t.rows.map (fun r => r.risk_bucket)) ∧
    (∀ p ∈ bucketCounts t, p.2 = countBucket t.rows p.1) ∧
    (bucketCounts t).Pairwise (fun p q => q.2 ≤ p.2) ∧
    ((bucketCounts t).map Prod.snd).sum = t.rows.length ∧
    (runDashboard t c1 f1).1.bucketTable = (runDashboard t c2 f2).1.bucketTable := by
  have hperm : (bucketCounts t).Perm
      ((dedupFirst (t.rows.map (fun r => r.risk_bucket))).map
        (fun b => (b, countBucket t.rows b))) := by
    rw [bucketCounts]
    exact List.perm_insertionSort descBySnd _
  have hkeys : ((dedupFirst (t.rows.map (fun r => r.risk_bucket))).map
      (fun b => (b, countBucket t.rows b))).map Prod.fst =
      dedupFirst (t.rows.map (fun r => r.risk_bucket)) := by
    rw [List.map_map]
    exact List.map_id' _
  refine ⟨?_, ?_, ?_, ?_, ?_, ?_⟩
  · have hnodup : (((dedupFirst (t.rows.map (fun r => r.risk_bucket))).map
        (fun b => (b, countBucket t.rows b))).map Prod.fst).Nodup := by
      rw [hkeys]
      exact nodup_dedupFirst _
    exact hnodup.perm (hperm.map Prod.fst).symm
  · intro b
    rw [(hperm.map Prod.fst).mem_iff, hkeys, mem_dedupFirst]
  · intro p hp
    rw [bucketCounts, List.mem_insertionSort] at hp
    rcases List.mem_map.mp hp with ⟨b, _, rfl⟩
    rfl
  · exact List.sorted_insertionSort descBySnd _
  · rw [(hperm.map Prod.snd).sum_eq, List.map_map]
    have hsnd : (Prod.snd ∘ fun b => (b, countBucket t.rows b)) =
        fun b => (t.rows.map (fun r => r.risk_bucket)).countP (fun x => x == b) := by
      funext b
      exact (List.countP_map (fun x => x == b) (fun r => r.risk_bucket) t.rows).symm
    rw [hsnd, sum_countP_over_nodup _ _ (nodup_dedupFirst _) (fun x hx => mem_dedupFirst.mpr hx),
      List.length_map]
  · rcases h1 : selectedRisk t c1 with _ | b1 <;> rcases h2 : selectedRisk t c2 with _ | b2 <;>
      simp [runDashboard, h1, h2, filterStep, headerStep, bucketStep, metricsStep,
        detailStep, scatterStep]

theorem bucket_counts_table_witness :
    "High" ∈ (bucketCounts exTable).map Prod.fst ∧
    ((bucketCounts exTable).map Prod.snd).sum = exTable.rows.length ∧
    (runDashboard exTable 0 true).1.bucketTable = (runDashboard exTable 1 false).1.bucketTable := by
  have h := bucket_counts_table exTable 0 1 true false
  exact ⟨(h.2.1 "High").mpr (by simp [exTable, exRow]), h.2.2.2.2.1, h.2.2.2.2.2⟩

/-- C8: after startup normalization no operation mutates the table — the
whole dashboard run, with every presenter modelled as a state-passing step,
returns the table exactly as it received it. -/
theorem run_dashboard_leaves_table (t : Table) (choice : ℕ) (flag : Bool) :
    (runDashboard t choice flag).2 = t := by
  rcases h : selectedRisk t choice with _ | b <;>
    simp [runDashboard, h, filterStep, headerStep, bucketStep, metricsStep,
      detailStep, scatterStep]

/-- C9: filtering preserves row order and identity — the filtered labelled
rows form a sublist of the enumerated full table (same relative order),
each filtered row still carries its original table index (looking that
index up in the full table returns the very row), and the detail panels are
exactly one per filtered row, keyed by that original index, in frame
order. -/
theorem detail_panels_order_and_identity (t : Table) (b : String) (flag : Bool) :
    (filteredIndexed t b flag).Sublist t.rows.enum ∧
    (∀ p ∈ filteredIndexed t b flag, t.rows[p.1]? = some p.2) ∧
    detailEntries t b flag =
      (filteredIndexed t b flag).map (fun p => (p.1, panelTitle p.1 p.2, mkPanel p.2)) := by
  have hsub : (filteredIndexed t b flag).Sublist t.rows.enum := by
    rw [filteredIndexed]
    cases flag
    · simp only [Bool.false_eq_true, if_false]
      exact List.filter_sublist _
    · simp only [if_true]
      exact (List.filter_sublist _).trans (List.filter_sublist _)
  refine ⟨hsub, ?_, rfl⟩
  intro p hp
  exact List.mem_enum_iff_getElem?.mp (hsub.subset hp)

theorem detail_panels_order_and_identity_witness :
    exTable.rows[0]? = some (exRow "High" 150) := by
  have h := detail_panels_order_and_identity exTable "High" true
  exact h.2.1 (0, exRow "High" 150) (by decide)

/-- C10: the displayed outputs are a deterministic function of the loaded
table, the selected risk level and the spend flag — two runs on equal
inputs produce equal outputs (header, bucket table, means, detail panels,
scatter data, PDF name) and equal final table states. -/
theorem run_dashboard_deterministic (t1 t2 : Table) (c1 c2 : ℕ) (f1 f2 : Bool)
    (ht : t1 = t2) (hc : c1 = c2) (hf : f1 = f2) :
    runDashboard t1 c1 f1 = runDashboard t2 c2 f2 := by
  subst ht
  subst hc
  subst hf
  rfl

theorem run_dashboard_deterministic_witness :
    runDashboard exTable 1 true = runDashboard exTable 1 true :=
  run_dashboard_deterministic exTable exTable 1 1 true true rfl rfl rfl

end GamblingRisk
